import Mathlib

/-!
Verification of the open-build-service mock server and the obsctl status
monitor, shallowly embedded from the Rust sources
(open-build-service-mock/src/lib.rs, api/source.rs, api/build.rs and
obsctl/src/main.rs).

Hash maps are embedded as association lists (insertion order stands in for
the map's iteration order; map semantics — lookup and replacing insert —
are what the theorems use).  Machine integers are Nat.  `SystemTime` values
are Nat timestamps.  Byte strings are `List Nat`.  Externally computed
values (MD5 digests, rendered metadata XML, random checksums, clock reads)
are passed in as explicit parameters, mirroring the spec's decision to
treat digest computation and XML serialization as external collaborators.
Rust panics (unwrap/assert/slice or index out of bounds) are represented by
`Option` (`none` = panic) or by an explicit `panic` outcome constructor.
-/

/-- Look up a key in an association list: first binding wins, like a map. -/
def alookup {α β : Type} [DecidableEq α] : List (α × β) → α → Option β
  | [], _ => none
  | (k, v) :: rest, key => if k = key then some v else alookup rest key

/-- Insert a binding into an association list, replacing an existing
binding for the same key (the semantics of HashMap::insert). -/
def alinsert {α β : Type} [DecidableEq α] : List (α × β) → α → β → List (α × β)
  | [], key, val => [(key, val)]
  | (k, v) :: rest, key, val =>
    if k = key then (key, val) :: rest else (k, v) :: alinsert rest key val

theorem alookup_alinsert_self {α β : Type} [DecidableEq α]
    (l : List (α × β)) (k : α) (v : β) : alookup (alinsert l k v) k = some v := by
  induction l with
  | nil => simp [alinsert, alookup]
  | cons hd tl ih =>
    by_cases h : hd.1 = k
    · simp [alinsert, alookup, h]
    · simp [alinsert, alookup, h, ih]

theorem alookup_alinsert_ne {α β : Type} [DecidableEq α]
    (l : List (α × β)) (k k' : α) (v : β) (h : k' ≠ k) :
    alookup (alinsert l k v) k' = alookup l k' := by
  have hk : ¬k = k' := fun hc => h hc.symm
  induction l with
  | nil => simp [alinsert, alookup, hk]
  | cons hd tl ih =>
    by_cases hh : hd.1 = k
    · have hh' : ¬hd.1 = k' := by rw [hh]; exact hk
      simp [alinsert, alookup, hh, hk, hh']
    · simp [alinsert, alookup, hh, ih]

theorem alookup_append {α β : Type} [DecidableEq α]
    (l l' : List (α × β)) (k : α) :
    alookup (l ++ l') k =
      match alookup l k with
      | some v => some v
      | none => alookup l' k := by
  induction l with
  | nil => simp [alookup]
  | cons hd tl ih =>
    by_cases h : hd.1 = k
    · simp [alookup, h]
    · simp [alookup, h, ih]

/-! ## Data model (open-build-service-mock/src/lib.rs) -/

/-- `MockEntry`: one file entry of a revision (content md5 + mtime). -/
structure MockEntry where
  md5 : String
  mtime : Nat
deriving DecidableEq, Repr

/-- `MockLinkInfo`: the branch-origin record carried by a revision. -/
structure MockLinkInfo where
  project : String
  package : String
  baserev : String
  srcmd5 : String
  lsrcmd5 : String
  xsrcmd5 : String
deriving DecidableEq, Repr

/-- `MockRevisionOptions`: caller-supplied data for a new revision. -/
structure MockRevisionOptions where
  srcmd5 : String
  version : Option String
  time : Nat
  user : String
  comment : Option String
deriving DecidableEq, Repr

/-- `MockRevision`: one immutable revision of a package stream. -/
structure MockRevision where
  vrev : Option Nat
  linkinfo : List MockLinkInfo
  options : MockRevisionOptions
  entries : List (String × MockEntry)
deriving DecidableEq, Repr

/-- `MockPackageCode`: per-package build status codes. -/
inductive MockPackageCode where
  | unresolvable | succeeded | dispatching | failed | broken | disabled
  | excluded | blocked | locked | unknown | scheduled | building | finished
deriving DecidableEq, Repr

/-- `MockRepositoryCode`: repository lifecycle codes. -/
inductive MockRepositoryCode where
  | unknown | broken | scheduling | blocked | building | finished
  | publishing | published | unpublished
deriving DecidableEq, Repr

/-- `MockBuildStatus`: a package code together with the dirty flag. -/
structure MockBuildStatus where
  code : MockPackageCode
  dirty : Bool
deriving DecidableEq, Repr

/-- Default `MockBuildStatus` (`MockPackageCode::Unknown`, not dirty). -/
def MockBuildStatus.default : MockBuildStatus := ⟨MockPackageCode.unknown, false⟩

/-- `MockBuildLog`: contents are the bytes of the Rust `String`. -/
structure MockBuildLog where
  contents : List Nat
  mtime : Nat
  chunk_size : Option Nat
deriving DecidableEq, Repr

/-- `MockRepositoryPackage`: per-(repo, arch) state of one package. -/
structure MockRepositoryPackage where
  status : MockBuildStatus
  latest_log : Option MockBuildLog
  latest_successful_log : Option MockBuildLog
deriving DecidableEq, Repr

/-- Default `MockRepositoryPackage`, as created by `entry(..).or_default()`. -/
def MockRepositoryPackage.default : MockRepositoryPackage :=
  ⟨MockBuildStatus.default, none, none⟩

/-- `MockRepository`: lifecycle code plus the package-status map. -/
structure MockRepository where
  code : MockRepositoryCode
  packages : List (String × MockRepositoryPackage)
deriving DecidableEq, Repr

/-- `MockPackage`: content store, the two revision streams and the
per-version vrev counters. -/
structure MockPackage where
  files : List ((String × String) × List Nat)
  revisions : List MockRevision
  meta_revisions : List MockRevision
  latest_vrevs : List (Option String × Nat)
deriving DecidableEq, Repr

/-- `MockProject`.  The `rebuild_status` field is read by the rebuild
handler in api/build.rs (`project.rebuild_status`); the spec calls it the
configured rebuild status. -/
structure MockProject where
  packages : List (String × MockPackage)
  repos : List (String × List (String × MockRepository))
  rebuild_status : MockBuildStatus
deriving DecidableEq, Repr

/-- Top-level project registry. -/
abbrev ProjectMap := List (String × MockProject)

/-- The `_meta` special path (`MockSourceFile::META_PATH`). -/
def META_PATH : String := "_meta"

/-- `MockPackageOptions`: parameters of `MockPackage::new_with_metadata`. -/
structure MockPackageOptions where
  initial_meta_srcmd5 : String
  time : Nat
  user : String
deriving DecidableEq, Repr

/-- `MockPackage::new_with_metadata`.  The rendered metadata XML and its
MD5 digest are external computations and enter as `metaKeyMd5` /
`metaContents`. -/
def new_with_metadata (metaKeyMd5 : String) (metaContents : List Nat)
    (options : MockPackageOptions) : MockPackage :=
  { files := [((META_PATH, metaKeyMd5), metaContents)]
  , revisions := []
  , meta_revisions :=
      [{ vrev := none
       , linkinfo := []
       , options :=
          { srcmd5 := options.initial_meta_srcmd5, version := none
          , time := options.time, user := options.user, comment := none }
       , entries := [(META_PATH, ⟨metaKeyMd5, options.time⟩)] }]
  , latest_vrevs := [] }

/-- Counter value for a version key (`0` when the key is absent, the state
`entry(..).or_default()` starts from). -/
def vrevFor (l : List (Option String × Nat)) (v : Option String) : Nat :=
  (alookup l v).getD 0

/-- `MockPackage::add_revision`: bump the per-version vrev counter, check
that every entry's (path, md5) is already in the content store (the
`assert!`; its failure is a panic, modelled as `none`), and append the new
revision, copying the previous revision's linkinfo. -/
def add_revision (pkg : MockPackage) (options : MockRevisionOptions)
    (entries : List (String × MockEntry)) : Option MockPackage :=
  let vrev := vrevFor pkg.latest_vrevs options.version + 1
  if entries.all (fun pe => (alookup pkg.files (pe.1, pe.2.md5)).isSome) then
    some { pkg with
      latest_vrevs := alinsert pkg.latest_vrevs options.version vrev
      revisions := pkg.revisions ++
        [{ vrev := some vrev
         , linkinfo := (pkg.revisions.getLast?.map (fun r => r.linkinfo)).getD []
         , options := options
         , entries := entries }] }
  else
    none

/-- `MockBranchOptions` for `ObsMock::branch`. -/
structure MockBranchOptions where
  srcmd5 : String
  xsrcmd5 : String
  user : String
  time : Nat
  comment : Option String
deriving DecidableEq, Repr

/-- Package-level part of `ObsMock::branch`: build the branched destination
package from the origin package.  `origin.revisions.last().unwrap()` panics
when the origin has no source revision (`none`).  `destMetaKeyMd5` /
`destMetaContents` are the externally rendered+digested destination
metadata file, `destMetaSrcmd5` the `random_md5()` drawn for the fresh
metadata revision. -/
def branchPackage (origin_project_name origin_package_name : String)
    (origin : MockPackage) (options : MockBranchOptions)
    (destMetaKeyMd5 : String) (destMetaContents : List Nat)
    (destMetaSrcmd5 : String) : Option MockPackage :=
  match origin.revisions.getLast? with
  | none => none
  | some origin_rev =>
    let origin_files :=
      alinsert origin.files (META_PATH, destMetaKeyMd5) destMetaContents
    let linkinfo : MockLinkInfo :=
      { project := origin_project_name
      , package := origin_package_name
      , baserev := origin_rev.options.srcmd5
      , srcmd5 := origin_rev.options.srcmd5
      , lsrcmd5 := options.srcmd5
      , xsrcmd5 := options.xsrcmd5 }
    some
      { files := origin_files
      , revisions :=
          [{ vrev := some 1
           , linkinfo := [linkinfo]
           , options :=
              { srcmd5 := options.srcmd5, version := none
              , time := options.time, user := options.user
              , comment := options.comment }
           , entries := origin_rev.entries }]
      , meta_revisions :=
          [{ vrev := none
           , linkinfo := []
           , options :=
              { srcmd5 := destMetaSrcmd5, version := none
              , time := options.time, user := options.user
              , comment := options.comment }
           , entries := [(META_PATH, ⟨destMetaKeyMd5, options.time⟩)] }]
      , latest_vrevs := [(none, 1)] }

/-- `ObsMock::branch` at registry level: look up the origin project and
package (`get_project` / `get_package` panic when unknown, `none`), build
the branched package, then insert it into the destination project's
package map, replacing any existing entry (`HashMap::insert`). -/
def obsBranch (projects : ProjectMap)
    (origin_project_name origin_package_name : String)
    (branched_project_name branched_package_name : String)
    (options : MockBranchOptions) (destMetaKeyMd5 : String)
    (destMetaContents : List Nat) (destMetaSrcmd5 : String) :
    Option ProjectMap :=
  match alookup projects origin_project_name with
  | none => none
  | some origin_project =>
    match alookup origin_project.packages origin_package_name with
    | none => none
    | some origin =>
      match branchPackage origin_project_name origin_package_name origin
          options destMetaKeyMd5 destMetaContents destMetaSrcmd5 with
      | none => none
      | some dest =>
        match alookup projects branched_project_name with
        | none => none
        | some branched_project =>
          some (alinsert projects branched_project_name
            { branched_project with
                packages := alinsert branched_project.packages
                  branched_package_name dest })

/-! ## Protocol errors (api/mod.rs helpers; api/source.rs; api/build.rs) -/

/-- `ApiError`: HTTP status (as a number), machine-readable code, and
human-readable summary.  Quoting of names inside summary texts is elided
(messages are only ever compared against themselves in this development). -/
structure ApiError where
  status : Nat
  code : String
  summary : String
deriving DecidableEq, Repr

/-- Modelled from the spec: `unknown_project` lives in the api module that
is not under src/; each error "carries a machine-readable short code and a
human-readable message". -/
def unknown_project (project : String) : ApiError :=
  ⟨404, "unknown_project", project⟩

/-- api/source.rs `unknown_package`: code `unknown_package`, the summary is
the package name itself. -/
def source_unknown_package (package : String) : ApiError :=
  ⟨404, "unknown_package", package⟩

/-- api/build.rs `unknown_package`: code `404`, summary names the
package. -/
def build_unknown_package (package : String) : ApiError :=
  ⟨404, "404", "unknown package " ++ package⟩

/-- Modelled from the spec: `ApiError::into_xml` plus `XMLElement::render`
are in code not under src/; the spec says each error "renders as a small
XML error document" carrying the code and the summary. -/
def renderApiErrorXml (e : ApiError) : String :=
  "<status code=\"" ++ e.code ++ "\"><summary>" ++ e.summary ++
    "</summary></status>"

/-! ## Source listing (api/source.rs, PackageSourceListingResponder) -/

/-- One `entry` element of a directory listing (size is the stored
contents' byte length). -/
structure DirEntryView where
  name : String
  md5 : String
  size : Nat
  mtime : Nat
deriving DecidableEq, Repr

/-- A rendered `directory` response.  `rev`/`vrev` are `none` exactly for
the synthetic zero-revision response, which carries only `name` and
`srcmd5` attributes. -/
structure DirectoryView where
  name : String
  rev : Option Nat
  vrev : Option String
  srcmd5 : String
  linkinfo : List MockLinkInfo
  entries : List DirEntryView
deriving DecidableEq, Repr

/-- The vrev attribute text: empty for metadata revisions. -/
def vrevText : Option Nat → String
  | none => ""
  | some v => toString v

/-- Entry elements of `source_listing_xml`: each entry's contents are
fetched from the content store with `unwrap` (a miss is a panic, `none`). -/
def entryViews (pkg : MockPackage) :
    List (String × MockEntry) → Option (List DirEntryView)
  | [] => some []
  | (path, e) :: rest =>
    match alookup pkg.files (path, e.md5) with
    | none => none
    | some contents =>
      (entryViews pkg rest).map
        (fun es => ⟨path, e.md5, contents.length, e.mtime⟩ :: es)

/-- `source_listing_xml`: directory element for a resolved revision. -/
def source_listing_xml (package_name : String) (pkg : MockPackage)
    (rev_id : Nat) (rev : MockRevision) : Option DirectoryView :=
  (entryViews pkg rev.entries).map fun es =>
    { name := package_name
    , rev := some rev_id
    , vrev := some (vrevText rev.vrev)
    , srcmd5 := rev.options.srcmd5
    , linkinfo := rev.linkinfo
    , entries := es }

/-- The fixed empty-tree checksum of the synthetic zero revision. -/
def ZERO_REV_SRCMD5 : String := "d41d8cd98f00b204e9800998ecf8427e"

/-- The zero-revision response: name and the fixed srcmd5, nothing else. -/
def zeroRevDir (package_name : String) : DirectoryView :=
  { name := package_name, rev := none, vrev := none
  , srcmd5 := ZERO_REV_SRCMD5, linkinfo := [], entries := [] }

/-- Outcome of a listing request. -/
inductive ListingOutcome where
  | error (e : ApiError)
  | panic
  | ok (dir : DirectoryView)
deriving DecidableEq, Repr

/-- Package-level body of `PackageSourceListingResponder::respond` after
project/package resolution and `meta` parsing.  `revParam` is the parsed
numeric `rev` query parameter.  Mirrors the source: the explicit-index
bound check is `index <= package.revisions.len() && (index > 0 ||
!list_meta)`; `rev_id == 0` asserts `!list_meta` and returns the synthetic
empty directory; otherwise the selected stream is indexed at `rev_id - 1`
(an out-of-bounds index is a panic). -/
def sourceListing (package_name : String) (pkg : MockPackage)
    (list_meta : Bool) (revParam : Option Nat) : ListingOutcome :=
  let revIdOrErr : Except ApiError Nat :=
    match revParam with
    | some index =>
      if index ≤ pkg.revisions.length ∧ (0 < index ∨ list_meta = false) then
        Except.ok index
      else
        Except.error ⟨400, "400", "no such revision"⟩
    | none => Except.ok pkg.revisions.length
  match revIdOrErr with
  | Except.error e => ListingOutcome.error e
  | Except.ok rev_id =>
    if rev_id = 0 then
      if list_meta then ListingOutcome.panic
      else ListingOutcome.ok (zeroRevDir package_name)
    else
      let revs := if list_meta then pkg.meta_revisions else pkg.revisions
      match revs.get? (rev_id - 1) with
      | none => ListingOutcome.panic
      | some rev =>
        match source_listing_xml package_name pkg rev_id rev with
        | none => ListingOutcome.panic
        | some d => ListingOutcome.ok d

/-- Parse the `meta` query parameter: `1` is true, absent or `0` is false,
anything else is a 400. -/
def parseMetaFlag : Option String → Except ApiError Bool
  | some "1" => Except.ok true
  | none => Except.ok false
  | some "0" => Except.ok false
  | some _ => Except.error ⟨400, "400", "not boolean"⟩

/-- Registry-level `PackageSourceListingResponder::respond`: resolve
project and package, parse `meta`, then run the package-level listing. -/
def sourceListingEndpoint (projects : ProjectMap)
    (project_name package_name : String) (metaParam : Option String)
    (revParam : Option Nat) : ListingOutcome :=
  match alookup projects project_name with
  | none => ListingOutcome.error (unknown_project project_name)
  | some project =>
    match alookup project.packages package_name with
    | none => ListingOutcome.error (source_unknown_package package_name)
    | some pkg =>
      match parseMetaFlag metaParam with
      | Except.error e => ListingOutcome.error e
      | Except.ok list_meta => sourceListing package_name pkg list_meta revParam

/-! ## Commit handshake (api/source.rs, PackageSourceCommandResponder) -/

/-- One `entry` element of the posted file list. -/
structure DirectoryRequestEntry where
  name : String
  md5 : String
deriving DecidableEq, Repr

/-- Outcome of a `cmd=commitfilelist` request on an existing package. -/
inductive CommitResult where
  | missing (package_name : String) (entries : List DirectoryRequestEntry)
  | panic
  | ok (dir : DirectoryView)
deriving DecidableEq, Repr

/-- The commit loop over the posted file list: a candidate whose
(name, md5) is in the content store is added to the entry map (insert by
name, replacing), the rest are pushed onto the missing list in order. -/
def commitLoop (files : List ((String × String) × List Nat)) (time : Nat) :
    List DirectoryRequestEntry → List (String × MockEntry) →
    List DirectoryRequestEntry →
    List (String × MockEntry) × List DirectoryRequestEntry
  | [], entries, missing => (entries, missing)
  | e :: rest, entries, missing =>
    if (alookup files (e.name, e.md5)).isSome then
      commitLoop files time rest
        (alinsert entries e.name ⟨e.md5, time⟩) missing
    else
      commitLoop files time rest entries (missing ++ [e])

/-- The `commitfilelist` body: partition the candidates; when anything is
missing answer the `missing` directory and change nothing; otherwise append
a revision (srcmd5 drawn by `random_md5()`, passed in; version `None`) and
answer the listing of the new revision. -/
def commitFileList (pkg : MockPackage) (package_name : String)
    (srcmd5 user : String) (comment : Option String) (time : Nat)
    (filelist : List DirectoryRequestEntry) : MockPackage × CommitResult :=
  let res := commitLoop pkg.files time filelist [] []
  if res.2.isEmpty then
    match add_revision pkg
        { srcmd5 := srcmd5, version := none, time := time, user := user
        , comment := comment } res.1 with
    | none => (pkg, CommitResult.panic)
    | some pkg' =>
      match pkg'.revisions.getLast? with
      | none => (pkg', CommitResult.panic)
      | some rev =>
        match source_listing_xml package_name pkg' pkg'.revisions.length rev with
        | none => (pkg', CommitResult.panic)
        | some d => (pkg', CommitResult.ok d)
  else
    (pkg, CommitResult.missing package_name res.2)

/-- Registry-level `PackageSourceCommandResponder::respond`: resolve the
project, then the package, then the `cmd` parameter; only
`commitfilelist` is implemented.  The request body is taken already
XML-decoded (XML decoding is an external collaborator). -/
def packageSourceCommand (projects : ProjectMap)
    (project_name package_name : String) (cmd : Option String)
    (comment : Option String) (srcmd5 user : String) (time : Nat)
    (filelist : List DirectoryRequestEntry) :
    Except ApiError (ProjectMap × CommitResult) :=
  match alookup projects project_name with
  | none => Except.error (unknown_project project_name)
  | some project =>
    match alookup project.packages package_name with
    | none => Except.error (source_unknown_package package_name)
    | some pkg =>
      match cmd with
      | none =>
        Except.error
          ⟨400, "missing_parameter", "POST request without given cmd parameter"⟩
      | some c =>
        if c = "commitfilelist" then
          let res := commitFileList pkg package_name srcmd5 user comment time
            filelist
          Except.ok
            ( alinsert projects project_name
                { project with
                    packages := alinsert project.packages package_name res.1 }
            , res.2 )
        else
          Except.error ⟨404, "illegal_request", "invalid_command"⟩

/-! ## Rebuild command (api/build.rs, ProjectBuildCommandResponder) -/

/-- The effective package-name list of a rebuild: the explicitly given
names, or every package of the project when none was given. -/
def effectiveNames (project : MockProject) (names : List String) :
    List String :=
  if names.isEmpty then project.packages.map Prod.fst else names

/-- `entry(package_name).or_default()` followed by a status overwrite. -/
def setStatusOrDefault (pkgs : List (String × MockRepositoryPackage))
    (name : String) (st : MockBuildStatus) :
    List (String × MockRepositoryPackage) :=
  match alookup pkgs name with
  | some p => alinsert pkgs name { p with status := st }
  | none => pkgs ++ [(name, { MockRepositoryPackage.default with status := st })]

/-- The inner rebuild loop over the requested names for one repo/arch. -/
def applyRebuildStatus (pkgs : List (String × MockRepositoryPackage))
    (names : List String) (st : MockBuildStatus) :
    List (String × MockRepositoryPackage) :=
  names.foldl (fun acc n => setStatusOrDefault acc n st) pkgs

/-- `cmd=rebuild` on an existing project: validate every requested name
against the project's packages (the first unknown name aborts with the
real service's nested-error quirk: the standard unknown-package error
document rendered to text and wrapped as the summary of an outer
`not_found` error), then set every (repo, arch, requested package) status
to the project's configured rebuild status.  Returns the (possibly
updated) project together with the response. -/
def rebuildCommand (project : MockProject) (names : List String) :
    MockProject × Except ApiError Unit :=
  let eff := effectiveNames project names
  match eff.find? (fun n => (alookup project.packages n).isNone) with
  | some missing_name =>
    ( project
    , Except.error
        ⟨404, "not_found", renderApiErrorXml (build_unknown_package missing_name)⟩ )
  | none =>
    ( { packages := project.packages
      , repos := project.repos.map fun ra =>
          ( ra.1
          , ra.2.map fun ar =>
              ( ar.1
              , { code := ar.2.code
                , packages :=
                    applyRebuildStatus ar.2.packages eff
                      project.rebuild_status } ) )
      , rebuild_status := project.rebuild_status }
    , Except.ok () )

/-! ## Build log reads (api/build.rs, BuildLogResponder) -/

/-- Outcome of a build-log content read. -/
inductive LogReadOutcome where
  | error (e : ApiError)
  | panic
  | ok (body : List Nat)
deriving DecidableEq, Repr

/-- Rust `str::is_char_boundary` over the UTF-8 byte representation:
index 0 is always a boundary; an index equal to the length is a boundary;
any other in-range index is a boundary exactly when the byte there is not
a UTF-8 continuation byte (0x80..0xBF); past the end is not a boundary. -/
def is_char_boundary (contents : List Nat) (i : Nat) : Bool :=
  if i = 0 then
    true
  else
    match contents.get? i with
    | none => decide (i = contents.length)
    | some b => decide (b < 128 ∨ 192 ≤ b)

/-- Rust range slicing `&contents[s..e]` on a `&str`: yields the bytes of
the range only when the range is not inverted and both endpoints are UTF-8
character boundaries (a boundary at `e` also forces `e ≤ len`); anything
else panics (`none`). -/
def sliceBytes (contents : List Nat) (s e : Nat) : Option (List Nat) :=
  if s ≤ e ∧ is_char_boundary contents s = true ∧
      is_char_boundary contents e = true then
    some ((contents.drop s).take (e - s))
  else
    none

/-- Content branch of `BuildLogResponder::respond` for the selected log:
a missing log reads as empty contents; `start` beyond the contents is a
400; the effective end is `min(end ?? len, len)` further clamped to
`start + chunk_size` when the log defines a chunk size; then the byte
range is sliced out. -/
def readLog (log : Option MockBuildLog) (start : Nat) (endParam : Option Nat) :
    LogReadOutcome :=
  let contents := (log.map (fun l => l.contents)).getD []
  if start ≤ contents.length then
    let end1 := min (endParam.getD contents.length) contents.length
    let end2 := min end1
      (match log.bind (fun l => l.chunk_size) with
       | some c => start + c
       | none => end1)
    match sliceBytes contents start end2 with
    | some body => LogReadOutcome.ok body
    | none => LogReadOutcome.panic
  else
    LogReadOutcome.error
      ⟨400, "400", "remote error: start out of range  " ++ toString start⟩

/-! ## Status monitor (obsctl/src/main.rs) -/

/-- Modelled from the spec: `PackageCode` of the open-build-service-api
crate (only its tests are under src/); the spec lists exactly these codes
for the monitor. -/
inductive PackageCode where
  | unresolvable | succeeded | dispatching | failed | broken | disabled
  | excluded | blocked | locked | unknown | scheduled | building | finished
deriving DecidableEq, Repr

/-- Modelled from the spec: a `ResultListResult` of the api crate carries
the repository, the architecture, the dirty flag and the per-package
statuses; `get_status` is a lookup by package name. -/
structure ResultListResult where
  repository : String
  arch : String
  dirty : Bool
  statuses : List (String × PackageCode)
deriving DecidableEq, Repr

/-- obsctl `MonitorData`. -/
structure MonitorData where
  repository : String
  arch : String
  code : PackageCode
deriving DecidableEq, Repr

/-- `MonitorData::from_result`: `expect` panics (`none`) when the result
has no status for the monitored package; a dirty result forces the
observed code to `Unknown`. -/
def from_result (r : ResultListResult) (package : String) :
    Option MonitorData :=
  match alookup r.statuses package with
  | none => none
  | some s =>
    some
      { repository := r.repository
      , arch := r.arch
      , code := if r.dirty then PackageCode.unknown else s }

/-- Processing of one observed `MonitorData` against the stored
observations: the first stored entry with the same (repository, arch) is
updated only when the new code is not `Unknown` and differs; when no entry
matches, the observation is appended. -/
def processData : List MonitorData → MonitorData → List MonitorData
  | [], data => [data]
  | m :: rest, data =>
    if m.repository = data.repository ∧ m.arch = data.arch then
      (if data.code ≠ PackageCode.unknown ∧ m.code ≠ data.code
       then data else m) :: rest
    else
      m :: processData rest data

/-- One poll step of `monitor`: fold every result of the response through
`from_result` and `processData`; a `from_result` panic aborts the step. -/
def monitorStep (last : List MonitorData) (results : List ResultListResult)
    (package : String) : Option (List MonitorData) :=
  results.foldl
    (fun acc r => acc.bind fun l => (from_result r package).map (processData l))
    (some last)

/-! ## Derived notions used by the theorems -/

/-- Number of revisions of a list carrying a given version tag. -/
def countVersion (revs : List MockRevision) (v : Option String) : Nat :=
  revs.countP (fun r => decide (r.options.version = v))

/-- The vrev-counter invariant every package reachable through the mock's
operations satisfies: each per-version counter equals the number of source
revisions carrying that version. -/
def counterConsistent (pkg : MockPackage) : Prop :=
  ∀ v : Option String, vrevFor pkg.latest_vrevs v = countVersion pkg.revisions v

/-- The claim's effective end of a log read: `min(e ?? L, L, s + C)` when
the log defines a chunk size C, `min(e ?? L, L)` when it does not. -/
def effectiveLogEnd (log : MockBuildLog) (s : Nat) (e : Option Nat) : Nat :=
  match log.chunk_size with
  | some c =>
    min (min (e.getD log.contents.length) log.contents.length) (s + c)
  | none => min (e.getD log.contents.length) log.contents.length

/-! ## Theorems -/

theorem commitLoop_snd (files : List ((String × String) × List Nat))
    (time : Nat) :
    ∀ (l : List DirectoryRequestEntry) (entries : List (String × MockEntry))
      (missing : List DirectoryRequestEntry),
      (commitLoop files time l entries missing).2 =
        missing ++ l.filter (fun e => (alookup files (e.name, e.md5)).isNone) := by
  intro l
  induction l with
  | nil => intro entries missing; simp [commitLoop]
  | cons e rest ih =>
    intro entries missing
    by_cases h : (alookup files (e.name, e.md5)).isSome
    · have hn : (alookup files (e.name, e.md5)).isNone = false := by
        cases halt : alookup files (e.name, e.md5) <;> simp_all
      simp [commitLoop, h, ih, hn]
    · have hn : (alookup files (e.name, e.md5)).isNone = true := by
        cases halt : alookup files (e.name, e.md5) <;> simp_all
      simp [commitLoop, h, ih, hn]

/-- Claim C1: a commit whose candidate list contains at least one
(name, md5) pair absent from the content store returns the `missing`
directory listing exactly the absent entries (in request order), leaves
the package — its content store, both revision streams and counters —
unchanged, so a later listing still sees the same latest revision. -/
theorem c1_commit_missing_atomic (pkg : MockPackage)
    (package_name srcmd5 user : String) (comment : Option String) (time : Nat)
    (filelist : List DirectoryRequestEntry)
    (h : ∃ e ∈ filelist, alookup pkg.files (e.name, e.md5) = none) :
    commitFileList pkg package_name srcmd5 user comment time filelist =
      ( pkg
      , CommitResult.missing package_name
          (filelist.filter (fun e => (alookup pkg.files (e.name, e.md5)).isNone)) ) := by
  obtain ⟨e, he, habs⟩ := h
  have hsnd := commitLoop_snd pkg.files time filelist [] []
  have hmem : e ∈ filelist.filter
      (fun e => (alookup pkg.files (e.name, e.md5)).isNone) :=
    List.mem_filter.mpr ⟨he, by simp [habs]⟩
  have hempty : (filelist.filter
      (fun e => (alookup pkg.files (e.name, e.md5)).isNone)).isEmpty = false := by
    cases hcl : filelist.filter
        (fun e => (alookup pkg.files (e.name, e.md5)).isNone) with
    | nil => rw [hcl] at hmem; exact absurd hmem (List.not_mem_nil e)
    | cons a l => simp [List.isEmpty]
  simp only [commitFileList, hsnd, List.nil_append, hempty, Bool.false_eq_true,
    if_false]

theorem c1_commit_missing_atomic_witness :
    commitFileList ⟨[], [], [], []⟩ "q" "s" "u" none 0 [⟨"a", "m"⟩] =
      (⟨[], [], [], []⟩, CommitResult.missing "q" [⟨"a", "m"⟩]) := by
  have := c1_commit_missing_atomic ⟨[], [], [], []⟩ "q" "s" "u" none 0
    [⟨"a", "m"⟩] ⟨⟨"a", "m"⟩, by simp, rfl⟩
  simpa using this

theorem countVersion_append (revs : List MockRevision) (r : MockRevision)
    (v : Option String) :
    countVersion (revs ++ [r]) v =
      countVersion revs v + (if r.options.version = v then 1 else 0) := by
  unfold countVersion
  rw [List.countP_append]
  by_cases h : r.options.version = v <;> simp [List.countP_cons, h]

/-- Claim C2: adding a revision (with every candidate entry present, so
`add_revision` succeeds) gives it `vrev` = (number of existing revisions
with the same version value) + 1, and keeps the per-version counters in
sync with the revision list — therefore revisions sharing one version
value get vrev 1, 2, 3, … in order, and the first revision under a
distinct version value gets vrev 1, independently of the other
counters. -/
theorem c2_vrev_counter (pkg : MockPackage) (options : MockRevisionOptions)
    (entries : List (String × MockEntry)) (pkg' : MockPackage)
    (hcons : counterConsistent pkg)
    (h : add_revision pkg options entries = some pkg') :
    pkg'.revisions = pkg.revisions ++
      [{ vrev := some (countVersion pkg.revisions options.version + 1)
       , linkinfo := (pkg.revisions.getLast?.map (fun r => r.linkinfo)).getD []
       , options := options
       , entries := entries }] ∧
    counterConsistent pkg' := by
  simp only [add_revision] at h
  by_cases hall : entries.all
      (fun pe => (alookup pkg.files (pe.1, pe.2.md5)).isSome) = true
  · rw [if_pos hall] at h
    obtain rfl : _ = pkg' := Option.some.inj h
    constructor
    · show pkg.revisions ++
          [{ vrev := some (vrevFor pkg.latest_vrevs options.version + 1)
           , linkinfo := (pkg.revisions.getLast?.map (fun r => r.linkinfo)).getD []
           , options := options
           , entries := entries }] = _
      rw [hcons options.version]
    · intro v
      show vrevFor (alinsert pkg.latest_vrevs options.version
          (vrevFor pkg.latest_vrevs options.version + 1)) v =
        countVersion (pkg.revisions ++
          [{ vrev := some (vrevFor pkg.latest_vrevs options.version + 1)
           , linkinfo := (pkg.revisions.getLast?.map (fun r => r.linkinfo)).getD []
           , options := options
           , entries := entries }]) v
      rw [countVersion_append]
      by_cases hv : v = options.version
      · subst hv
        unfold vrevFor
        rw [alookup_alinsert_self, Option.getD_some]
        have hc := hcons options.version
        unfold vrevFor at hc
        rw [hc]
        simp
      · have hv' : ¬ (options.version = v) := fun hc => hv hc.symm
        unfold vrevFor
        rw [alookup_alinsert_ne _ _ _ _ hv]
        simpa [hv', vrevFor] using hcons v
  · rw [if_neg hall] at h
    exact absurd h (by simp)

theorem c2_vrev_counter_witness :
    ∃ pkg' : MockPackage,
      add_revision (new_with_metadata "mk" [] ⟨"ms", 0, "u"⟩)
        ⟨"s1", none, 1, "u", none⟩ [] = some pkg' ∧
      pkg'.revisions = (new_with_metadata "mk" [] ⟨"ms", 0, "u"⟩).revisions ++
        [{ vrev := some (countVersion
              (new_with_metadata "mk" [] ⟨"ms", 0, "u"⟩).revisions none + 1)
         , linkinfo := (((new_with_metadata "mk" []
              ⟨"ms", 0, "u"⟩).revisions.getLast?).map
                (fun r => r.linkinfo)).getD []
         , options := ⟨"s1", none, 1, "u", none⟩
         , entries := [] }] ∧
      counterConsistent pkg' := by
  refine ⟨_, rfl, ?_⟩
  exact c2_vrev_counter (new_with_metadata "mk" [] ⟨"ms", 0, "u"⟩)
    ⟨"s1", none, 1, "u", none⟩ [] _ (fun _ => rfl) rfl

/-- Claim C3 (failing input): the explicit-index bound check uses the
source stream's length even when the metadata stream was selected.  For a
package with two source revisions and the single metadata revision every
package has, `meta=1&rev=2` passes the check and then indexes
`meta_revisions[1]`, which is out of bounds: the responder panics instead
of returning the BadRequest the claim (and the handler's own adjacent
`no such revision` error) prescribe. -/
theorem c3_meta_listing_out_of_bounds :
    sourceListingEndpoint
      [("p",
        { packages :=
            [("q",
              { files := [((META_PATH, "mk"), [])]
              , revisions :=
                  [ { vrev := some 1, linkinfo := []
                    , options := ⟨"s1", none, 0, "u", none⟩, entries := [] }
                  , { vrev := some 2, linkinfo := []
                    , options := ⟨"s2", none, 0, "u", none⟩, entries := [] } ]
              , meta_revisions :=
                  [ { vrev := none, linkinfo := []
                    , options := ⟨"ms", none, 0, "u", none⟩
                    , entries := [(META_PATH, ⟨"mk", 0⟩)] } ]
              , latest_vrevs := [(none, 2)] })]
        , repos := []
        , rebuild_status := ⟨MockPackageCode.unknown, false⟩ })]
      "p" "q" (some "1") (some 2) = ListingOutcome.panic := by
  decide

/-- Claim C9: for every existing package of an existing project, a source
listing with explicit revision index 0 on the source stream succeeds with
the synthetic empty directory: the fixed empty-tree checksum
d41d8cd98f00b204e9800998ecf8427e and zero entries, whatever the package's
revision history. -/
theorem c9_zero_revision (projects : ProjectMap)
    (project_name package_name : String) (project : MockProject)
    (pkg : MockPackage)
    (h1 : alookup projects project_name = some project)
    (h2 : alookup project.packages package_name = some pkg) :
    sourceListingEndpoint projects project_name package_name none (some 0) =
      ListingOutcome.ok (zeroRevDir package_name) := by
  simp only [sourceListingEndpoint, h1, h2, parseMetaFlag]
  simp [sourceListing]

theorem c9_zero_revision_witness :
    sourceListingEndpoint
      [("p",
        { packages := [("q", ⟨[], [], [], []⟩)]
        , repos := []
        , rebuild_status := ⟨MockPackageCode.unknown, false⟩ })]
      "p" "q" none (some 0) = ListingOutcome.ok (zeroRevDir "q") :=
  c9_zero_revision _ "p" "q" _ ⟨[], [], [], []⟩ rfl rfl

/-- Claim C4 (counterexample): a `cmd=commitfilelist` request naming a
missing package in an existing project returns the plain
`unknown_package` error of api/source.rs directly — its outer code IS the
standard unknown-package code and its summary is the bare package name,
not the rendered XML text of a nested error document.  The nesting quirk
the claim describes belongs to the rebuild command. -/
theorem c4_commit_unknown_package_counterexample :
    packageSourceCommand
      [("p", { packages := []
             , repos := []
             , rebuild_status := ⟨MockPackageCode.unknown, false⟩ })]
      "p" "q" (some "commitfilelist") none "s" "u" 0 [] =
      Except.error (source_unknown_package "q") ∧
    (source_unknown_package "q").code = "unknown_package" ∧
    (source_unknown_package "q").summary ≠
      renderApiErrorXml (source_unknown_package "q") := by
  refine ⟨rfl, rfl, by decide⟩

/-- Claim C4 (amended): it is the rebuild command, not the commit, that
reproduces the real service's quirk: when a requested package name is
unknown to the project, the standard unknown-package error document of
api/build.rs is rendered to text and nested as the string summary of an
outer error whose code (`not_found`) differs from the inner document's
code. -/
theorem c4_rebuild_nested_error (project : MockProject) (names : List String)
    (b : String)
    (h : (effectiveNames project names).find?
      (fun n => (alookup project.packages n).isNone) = some b) :
    (rebuildCommand project names).2 =
      Except.error
        ⟨404, "not_found", renderApiErrorXml (build_unknown_package b)⟩ ∧
    (build_unknown_package b).code ≠ "not_found" := by
  constructor
  · simp only [rebuildCommand, h]
  · intro hc
    simp [build_unknown_package] at hc

theorem c4_rebuild_nested_error_witness :
    (rebuildCommand
      { packages := [], repos := []
      , rebuild_status := ⟨MockPackageCode.unknown, false⟩ } ["b"]).2 =
      Except.error
        ⟨404, "not_found", renderApiErrorXml (build_unknown_package "b")⟩ ∧
    (build_unknown_package "b").code ≠ "not_found" :=
  c4_rebuild_nested_error
    { packages := [], repos := []
    , rebuild_status := ⟨MockPackageCode.unknown, false⟩ } ["b"] "b" rfl

/-- Claim C5: branching from an origin that has at least one source
revision creates a destination whose revision list is exactly one revision
with vrev 1, entries equal to the origin's latest source revision's
entries, and exactly one LinkInfo with lsrcmd5 = the supplied checksum,
xsrcmd5 = the supplied expanded checksum, and baserev and srcmd5 both
equal to the origin's latest revision's srcmd5. -/
theorem c5_branch_linkinfo (origin_project_name origin_package_name : String)
    (origin : MockPackage) (options : MockBranchOptions)
    (destMetaKeyMd5 : String) (destMetaContents : List Nat)
    (destMetaSrcmd5 : String) (r : MockRevision)
    (h : origin.revisions.getLast? = some r) :
    ∃ dest : MockPackage,
      branchPackage origin_project_name origin_package_name origin options
        destMetaKeyMd5 destMetaContents destMetaSrcmd5 = some dest ∧
      dest.revisions =
        [{ vrev := some 1
         , linkinfo :=
            [{ project := origin_project_name
             , package := origin_package_name
             , baserev := r.options.srcmd5
             , srcmd5 := r.options.srcmd5
             , lsrcmd5 := options.srcmd5
             , xsrcmd5 := options.xsrcmd5 }]
         , options :=
            { srcmd5 := options.srcmd5, version := none
            , time := options.time, user := options.user
            , comment := options.comment }
         , entries := r.entries }] := by
  unfold branchPackage
  rw [h]
  exact ⟨_, rfl, rfl⟩

theorem c5_branch_linkinfo_witness :
    ∃ dest : MockPackage,
      branchPackage "po" "pa" ⟨[], [⟨some 1, [], ⟨"s0", none, 0, "u", none⟩,
          [("f", ⟨"fm", 0⟩)]⟩], [], [(none, 1)]⟩
        ⟨"X", "Y", "u2", 7, none⟩ "mk" [] "ms" = some dest ∧
      dest.revisions =
        [{ vrev := some 1
         , linkinfo :=
            [{ project := "po", package := "pa", baserev := "s0"
             , srcmd5 := "s0", lsrcmd5 := "X", xsrcmd5 := "Y" }]
         , options := ⟨"X", none, 7, "u2", none⟩
         , entries := [("f", ⟨"fm", 0⟩)] }] :=
  c5_branch_linkinfo "po" "pa"
    ⟨[], [⟨some 1, [], ⟨"s0", none, 0, "u", none⟩, [("f", ⟨"fm", 0⟩)]⟩], [],
      [(none, 1)]⟩
    ⟨"X", "Y", "u2", 7, none⟩ "mk" [] "ms"
    ⟨some 1, [], ⟨"s0", none, 0, "u", none⟩, [("f", ⟨"fm", 0⟩)]⟩ rfl

/-- Claim C10: a branch whose destination (project, package) already names
an existing package succeeds — `branch` has no error path for this case —
and silently replaces the existing destination package with the freshly
branched one. -/
theorem c10_branch_overwrites (projects : ProjectMap)
    (origin_project_name origin_package_name : String)
    (branched_project_name branched_package_name : String)
    (options : MockBranchOptions) (destMetaKeyMd5 : String)
    (destMetaContents : List Nat) (destMetaSrcmd5 : String)
    (origin_project branched_project : MockProject)
    (origin old : MockPackage)
    (h1 : alookup projects origin_project_name = some origin_project)
    (h2 : alookup origin_project.packages origin_package_name = some origin)
    (h3 : origin.revisions.getLast?.isSome = true)
    (h4 : alookup projects branched_project_name = some branched_project)
    (_h5 : alookup branched_project.packages branched_package_name = some old) :
    ∃ dest projects',
      branchPackage origin_project_name origin_package_name origin options
        destMetaKeyMd5 destMetaContents destMetaSrcmd5 = some dest ∧
      obsBranch projects origin_project_name origin_package_name
        branched_project_name branched_package_name options destMetaKeyMd5
        destMetaContents destMetaSrcmd5 = some projects' ∧
      ∃ branched_project',
        alookup projects' branched_project_name = some branched_project' ∧
        alookup branched_project'.packages branched_package_name = some dest := by
  obtain ⟨r, hr⟩ := Option.isSome_iff_exists.mp h3
  have hdest : ∃ dest, branchPackage origin_project_name origin_package_name
      origin options destMetaKeyMd5 destMetaContents destMetaSrcmd5 =
      some dest := by
    unfold branchPackage
    rw [hr]
    exact ⟨_, rfl⟩
  obtain ⟨dest, hdest⟩ := hdest
  refine ⟨dest,
    alinsert projects branched_project_name
      { branched_project with
          packages := alinsert branched_project.packages
            branched_package_name dest },
    hdest, ?_, ?_⟩
  · simp only [obsBranch, h1, h2, hdest, h4]
  · exact ⟨_, alookup_alinsert_self _ _ _, alookup_alinsert_self _ _ _⟩

theorem c10_branch_overwrites_witness :
    ∃ dest projects',
      branchPackage "o" "a"
        ⟨[], [⟨some 1, [], ⟨"s0", none, 0, "u", none⟩, []⟩], [], [(none, 1)]⟩
        ⟨"X", "Y", "u2", 7, none⟩ "mk" [] "ms" = some dest ∧
      obsBranch
        [ ("o",
            ⟨[("a", ⟨[], [⟨some 1, [], ⟨"s0", none, 0, "u", none⟩, []⟩], [],
              [(none, 1)]⟩)], [], ⟨MockPackageCode.unknown, false⟩⟩)
        , ("d",
            ⟨[("b", ⟨[], [], [], []⟩)], [],
              ⟨MockPackageCode.unknown, false⟩⟩) ]
        "o" "a" "d" "b" ⟨"X", "Y", "u2", 7, none⟩ "mk" [] "ms" =
        some projects' ∧
      ∃ branched_project',
        alookup projects' "d" = some branched_project' ∧
        alookup branched_project'.packages "b" = some dest :=
  c10_branch_overwrites _ "o" "a" "d" "b" ⟨"X", "Y", "u2", 7, none⟩ "mk" [] "ms"
    _ _ _ ⟨[], [], [], []⟩ rfl rfl rfl rfl rfl

/-- Claim C6 (counterexample): two reachable reads where the claim's
formula prescribes a body but the code panics.  (1) For the spec's own
13-byte log "some log text" and start=4, end=2 the formula gives the bytes
in [4, min(2, 13)) — the empty body — but the code slices
`&contents[4..2]`, an inverted range, and panics.  (2) For the 3-byte
two-character log "h\xc3\xa9" and start=2 the formula gives the single
byte in [2, 3), but index 2 falls on a UTF-8 continuation byte, so the
`&str` slice panics on the character boundary check. -/
theorem c6_log_read_counterexample :
    (readLog (some ⟨[115, 111, 109, 101, 32, 108, 111, 103, 32, 116, 101,
        120, 116], 0, none⟩) 4 (some 2) = LogReadOutcome.panic ∧
     readLog (some ⟨[115, 111, 109, 101, 32, 108, 111, 103, 32, 116, 101,
        120, 116], 0, none⟩) 4 (some 2) ≠ LogReadOutcome.ok []) ∧
    (readLog (some ⟨[104, 195, 169], 0, none⟩) 2 none =
        LogReadOutcome.panic ∧
     readLog (some ⟨[104, 195, 169], 0, none⟩) 2 none ≠
        LogReadOutcome.ok [169]) := by
  refine ⟨⟨rfl, by decide⟩, rfl, by decide⟩

/-- Unfolding of `readLog` on a present log. -/
theorem readLog_some (log : MockBuildLog) (start : Nat) (endParam : Option Nat) :
    readLog (some log) start endParam =
      if start ≤ log.contents.length then
        (match sliceBytes log.contents start
            (min (min (endParam.getD log.contents.length) log.contents.length)
              (match log.chunk_size with
               | some c => start + c
               | none =>
                 min (endParam.getD log.contents.length)
                   log.contents.length)) with
         | some body => LogReadOutcome.ok body
         | none => LogReadOutcome.panic)
      else
        LogReadOutcome.error
          ⟨400, "400", "remote error: start out of range  " ++ toString start⟩ :=
  rfl

/-- Claim C6 (amended): for a stored log of length L, a read with
start=s > L fails BadRequest; otherwise, provided the requested end (when
given) is not below s and both s and the effective end fall on UTF-8
character boundaries of the log text — when the range is inverted or an
endpoint falls mid-character the `&str` slice panics instead — the
response body is exactly the bytes of the log in [s, min(e ?? L, L, s+C))
when the chunk size C is defined and [s, min(e ?? L, L)) when it is
not. -/
theorem c6_log_range_clamp (log : MockBuildLog) (s : Nat) (e : Option Nat) :
    (log.contents.length < s →
      readLog (some log) s e =
        LogReadOutcome.error
          ⟨400, "400", "remote error: start out of range  " ++ toString s⟩) ∧
    (s ≤ log.contents.length → (∀ v, e = some v → s ≤ v) →
      is_char_boundary log.contents s = true →
      is_char_boundary log.contents (effectiveLogEnd log s e) = true →
      readLog (some log) s e =
        LogReadOutcome.ok
          ((log.contents.drop s).take (effectiveLogEnd log s e - s))) := by
  constructor
  · intro hgt
    have hns : ¬ s ≤ log.contents.length := by omega
    rw [readLog_some, if_neg hns]
  · intro hle hev hbs hbe
    have hs_end1 : s ≤ min (e.getD log.contents.length) log.contents.length := by
      cases e with
      | none => simp [hle]
      | some v => exact Nat.le_min.mpr ⟨hev v rfl, hle⟩
    rw [readLog_some, if_pos hle]
    cases hch : log.chunk_size with
    | none =>
      simp only [effectiveLogEnd, hch] at hbe
      have hslice : sliceBytes log.contents s
          (min (e.getD log.contents.length) log.contents.length) =
          some ((log.contents.drop s).take
            (min (e.getD log.contents.length) log.contents.length - s)) :=
        if_pos ⟨hs_end1, hbs, hbe⟩
      simp only [effectiveLogEnd, hch]
      simp [hslice]
    | some c =>
      simp only [effectiveLogEnd, hch] at hbe
      have hs_end2 : s ≤
          min (min (e.getD log.contents.length) log.contents.length) (s + c) :=
        Nat.le_min.mpr ⟨hs_end1, Nat.le_add_right s c⟩
      have hslice : sliceBytes log.contents s
          (min (min (e.getD log.contents.length) log.contents.length) (s + c)) =
          some ((log.contents.drop s).take
            (min (min (e.getD log.contents.length) log.contents.length)
              (s + c) - s)) :=
        if_pos ⟨hs_end2, hbs, hbe⟩
      simp only [min_assoc] at hslice
      simp only [effectiveLogEnd, hch]
      simp [hslice]

theorem c6_log_range_clamp_witness :
    readLog (some ⟨[115, 111, 109, 101, 32, 108, 111, 103, 32, 116, 101,
        120, 116], 0, some 5⟩) 4 (some 11) =
      LogReadOutcome.ok [32, 108, 111, 103, 32] ∧
    readLog (some ⟨[115, 111, 109, 101, 32, 108, 111, 103, 32, 116, 101,
        120, 116], 0, some 5⟩) 20 none =
      LogReadOutcome.error
        ⟨400, "400", "remote error: start out of range  " ++ toString 20⟩ := by
  constructor
  · have h := (c6_log_range_clamp
      ⟨[115, 111, 109, 101, 32, 108, 111, 103, 32, 116, 101, 120, 116], 0,
        some 5⟩ 4 (some 11)).2
      (by decide) (fun v hv => by cases hv; decide) (by decide) (by decide)
    rw [h]
    decide
  · exact (c6_log_range_clamp
      ⟨[115, 111, 109, 101, 32, 108, 111, 103, 32, 116, 101, 120, 116], 0,
        some 5⟩ 20 none).1 (by decide)

theorem alookup_map_value {α β γ : Type} [DecidableEq α]
    (l : List (α × β)) (f : β → γ) (k : α) :
    alookup (l.map (fun p => (p.1, f p.2))) k = (alookup l k).map f := by
  induction l with
  | nil => simp [alookup]
  | cons hd tl ih =>
    by_cases h : hd.1 = k
    · simp [alookup, h]
    · simp [alookup, h, ih]

theorem setStatusOrDefault_self (pkgs : List (String × MockRepositoryPackage))
    (n : String) (st : MockBuildStatus) :
    ∃ q, alookup (setStatusOrDefault pkgs n st) n = some q ∧ q.status = st := by
  unfold setStatusOrDefault
  cases h : alookup pkgs n with
  | some p =>
    exact ⟨{ p with status := st }, alookup_alinsert_self _ _ _, rfl⟩
  | none =>
    refine ⟨{ MockRepositoryPackage.default with status := st }, ?_, rfl⟩
    rw [alookup_append, h]
    simp [alookup]

theorem setStatusOrDefault_ne (pkgs : List (String × MockRepositoryPackage))
    (n n' : String) (st : MockBuildStatus) (h : n' ≠ n) :
    alookup (setStatusOrDefault pkgs n st) n' = alookup pkgs n' := by
  unfold setStatusOrDefault
  cases hh : alookup pkgs n with
  | some p => exact alookup_alinsert_ne _ _ _ _ h
  | none =>
    rw [alookup_append]
    cases hx : alookup pkgs n' with
    | some q => rfl
    | none =>
      have hne : ¬ n = n' := fun hc => h hc.symm
      simp [alookup, hne]

theorem applyRebuildStatus_lookup (st : MockBuildStatus) :
    ∀ (names : List String) (pkgs : List (String × MockRepositoryPackage))
      (n : String),
      (n ∈ names ∨ ∃ q, alookup pkgs n = some q ∧ q.status = st) →
      ∃ q, alookup (applyRebuildStatus pkgs names st) n = some q ∧
        q.status = st := by
  intro names
  induction names with
  | nil =>
    intro pkgs n h
    rcases h with h | h
    · cases h
    · simpa [applyRebuildStatus] using h
  | cons m rest ih =>
    intro pkgs n h
    have hstep : applyRebuildStatus pkgs (m :: rest) st =
        applyRebuildStatus (setStatusOrDefault pkgs m st) rest st := rfl
    rw [hstep]
    apply ih
    by_cases hnm : n = m
    · subst hnm
      exact Or.inr (setStatusOrDefault_self pkgs n st)
    · rcases h with h | ⟨q, hq, hst⟩
      · rcases List.mem_cons.mp h with h1 | h2
        · exact absurd h1 hnm
        · exact Or.inl h2
      · exact Or.inr ⟨q, by rw [setStatusOrDefault_ne _ _ _ _ hnm]; exact hq, hst⟩

/-- Claim C7: a rebuild command naming (explicitly or, when no names are
given, implicitly through the project's package list) any package unknown
to the project fails with an error and leaves the project — every
package's status in every repository and architecture — unchanged; when
every requested name is a package of the project, the command succeeds and
sets the status of every requested package in every (repository,
architecture) of the project to the configured rebuild status. -/
theorem c7_rebuild_all_or_nothing (project : MockProject)
    (names : List String) :
    ((∃ n ∈ effectiveNames project names,
        alookup project.packages n = none) →
      (rebuildCommand project names).1 = project ∧
      ∃ err, (rebuildCommand project names).2 = Except.error err) ∧
    ((∀ n ∈ effectiveNames project names,
        (alookup project.packages n).isSome) →
      (rebuildCommand project names).2 = Except.ok () ∧
      ∀ repo_name archmap,
        alookup (rebuildCommand project names).1.repos repo_name =
          some archmap →
        ∀ arch repo, alookup archmap arch = some repo →
          ∀ n ∈ effectiveNames project names,
            ∃ q, alookup repo.packages n = some q ∧
              q.status = project.rebuild_status) := by
  constructor
  · intro hbad
    have hfind : ((effectiveNames project names).find?
        (fun n => (alookup project.packages n).isNone)).isSome := by
      rw [List.find?_isSome]
      obtain ⟨n, hn, hnone⟩ := hbad
      exact ⟨n, hn, by simp [hnone]⟩
    obtain ⟨b, hb⟩ := Option.isSome_iff_exists.mp hfind
    constructor
    · simp only [rebuildCommand, hb]
    · exact ⟨⟨404, "not_found", renderApiErrorXml (build_unknown_package b)⟩,
        by simp only [rebuildCommand, hb]⟩
  · intro hgood
    have hfind : (effectiveNames project names).find?
        (fun n => (alookup project.packages n).isNone) = none := by
      rw [List.find?_eq_none]
      intro n hn
      have hs := hgood n hn
      cases hx : alookup project.packages n with
      | none => rw [hx] at hs; simp at hs
      | some q => simp [hx]
    constructor
    · simp only [rebuildCommand, hfind]
    · intro repo_name archmap harch arch repo hrepo n hn
      simp only [rebuildCommand, hfind] at harch
      rw [alookup_map_value] at harch
      obtain ⟨arches0, harches0, rfl⟩ :
          ∃ a, alookup project.repos repo_name = some a ∧
            archmap = a.map (fun ar =>
              ( ar.1
              , { code := ar.2.code
                , packages := applyRebuildStatus ar.2.packages
                    (effectiveNames project names)
                    project.rebuild_status } )) := by
        cases hx : alookup project.repos repo_name with
        | none => rw [hx] at harch; cases harch
        | some a => rw [hx] at harch; exact ⟨a, rfl, (Option.some.inj harch).symm⟩
      have hmap : alookup (arches0.map (fun p => (p.1,
          ({ code := p.2.code
           , packages := applyRebuildStatus p.2.packages
               (effectiveNames project names) project.rebuild_status } :
            MockRepository)))) arch =
          (alookup arches0 arch).map (fun r =>
            { code := r.code
            , packages := applyRebuildStatus r.packages
                (effectiveNames project names) project.rebuild_status }) :=
        alookup_map_value arches0
          (fun r => ({ code := r.code
                     , packages := applyRebuildStatus r.packages
                         (effectiveNames project names)
                         project.rebuild_status } : MockRepository)) arch
      rw [hmap] at hrepo
      obtain ⟨repo0, hrepo0, rfl⟩ :
          ∃ r, alookup arches0 arch = some r ∧
            repo = { code := r.code
                   , packages := applyRebuildStatus r.packages
                       (effectiveNames project names)
                       project.rebuild_status } := by
        cases hx : alookup arches0 arch with
        | none => rw [hx] at hrepo; cases hrepo
        | some r => rw [hx] at hrepo; exact ⟨r, rfl, (Option.some.inj hrepo).symm⟩
      exact applyRebuildStatus_lookup project.rebuild_status _ _ n (Or.inl hn)

theorem c7_rebuild_all_or_nothing_witness :
    ((∃ n ∈ effectiveNames
        ⟨[("a", ⟨[], [], [], []⟩)],
          [("r", [("x", ⟨MockRepositoryCode.building, [("a",
            ⟨⟨MockPackageCode.failed, false⟩, none, none⟩)]⟩)])],
          ⟨MockPackageCode.scheduled, false⟩⟩ ["a", "zz"],
        alookup (⟨[("a", ⟨[], [], [], []⟩)],
          [("r", [("x", ⟨MockRepositoryCode.building, [("a",
            ⟨⟨MockPackageCode.failed, false⟩, none, none⟩)]⟩)])],
          ⟨MockPackageCode.scheduled, false⟩⟩ : MockProject).packages n = none) →
      (rebuildCommand ⟨[("a", ⟨[], [], [], []⟩)],
          [("r", [("x", ⟨MockRepositoryCode.building, [("a",
            ⟨⟨MockPackageCode.failed, false⟩, none, none⟩)]⟩)])],
          ⟨MockPackageCode.scheduled, false⟩⟩ ["a", "zz"]).1 =
        ⟨[("a", ⟨[], [], [], []⟩)],
          [("r", [("x", ⟨MockRepositoryCode.building, [("a",
            ⟨⟨MockPackageCode.failed, false⟩, none, none⟩)]⟩)])],
          ⟨MockPackageCode.scheduled, false⟩⟩ ∧
      ∃ err, (rebuildCommand ⟨[("a", ⟨[], [], [], []⟩)],
          [("r", [("x", ⟨MockRepositoryCode.building, [("a",
            ⟨⟨MockPackageCode.failed, false⟩, none, none⟩)]⟩)])],
          ⟨MockPackageCode.scheduled, false⟩⟩ ["a", "zz"]).2 =
        Except.error err) ∧
    ((∀ n ∈ effectiveNames
        ⟨[("a", ⟨[], [], [], []⟩)],
          [("r", [("x", ⟨MockRepositoryCode.building, [("a",
            ⟨⟨MockPackageCode.failed, false⟩, none, none⟩)]⟩)])],
          ⟨MockPackageCode.scheduled, false⟩⟩ ["a", "zz"],
        (alookup (⟨[("a", ⟨[], [], [], []⟩)],
          [("r", [("x", ⟨MockRepositoryCode.building, [("a",
            ⟨⟨MockPackageCode.failed, false⟩, none, none⟩)]⟩)])],
          ⟨MockPackageCode.scheduled, false⟩⟩ : MockProject).packages n).isSome) →
      (rebuildCommand ⟨[("a", ⟨[], [], [], []⟩)],
          [("r", [("x", ⟨MockRepositoryCode.building, [("a",
            ⟨⟨MockPackageCode.failed, false⟩, none, none⟩)]⟩)])],
          ⟨MockPackageCode.scheduled, false⟩⟩ ["a", "zz"]).2 = Except.ok () ∧
      ∀ repo_name archmap,
        alookup (rebuildCommand ⟨[("a", ⟨[], [], [], []⟩)],
          [("r", [("x", ⟨MockRepositoryCode.building, [("a",
            ⟨⟨MockPackageCode.failed, false⟩, none, none⟩)]⟩)])],
          ⟨MockPackageCode.scheduled, false⟩⟩ ["a", "zz"]).1.repos repo_name =
          some archmap →
        ∀ arch repo, alookup archmap arch = some repo →
          ∀ n ∈ effectiveNames
            ⟨[("a", ⟨[], [], [], []⟩)],
              [("r", [("x", ⟨MockRepositoryCode.building, [("a",
                ⟨⟨MockPackageCode.failed, false⟩, none, none⟩)]⟩)])],
              ⟨MockPackageCode.scheduled, false⟩⟩ ["a", "zz"],
            ∃ q, alookup repo.packages n = some q ∧
              q.status = ⟨MockPackageCode.scheduled, false⟩) :=
  c7_rebuild_all_or_nothing
    ⟨[("a", ⟨[], [], [], []⟩)],
      [("r", [("x", ⟨MockRepositoryCode.building, [("a",
        ⟨⟨MockPackageCode.failed, false⟩, none, none⟩)]⟩)])],
      ⟨MockPackageCode.scheduled, false⟩⟩ ["a", "zz"]

theorem processData_keeps_known (data : MonitorData) :
    ∀ (last : List MonitorData) (m : MonitorData), m ∈ last →
      m.code ≠ PackageCode.unknown →
      ∃ m' ∈ processData last data,
        m'.repository = m.repository ∧ m'.arch = m.arch ∧
        m'.code ≠ PackageCode.unknown := by
  intro last
  induction last with
  | nil => intro m hm; cases hm
  | cons hd rest ih =>
    intro m hm hc
    rcases List.mem_cons.mp hm with rfl | hmem
    · by_cases hmatch : m.repository = data.repository ∧ m.arch = data.arch
      · by_cases hupd : data.code ≠ PackageCode.unknown ∧ m.code ≠ data.code
        · refine ⟨data, ?_, hmatch.1.symm, hmatch.2.symm, hupd.1⟩
          simp [processData, hmatch, hupd]
        · refine ⟨m, ?_, rfl, rfl, hc⟩
          simp [processData, hmatch, hupd]
      · refine ⟨m, ?_, rfl, rfl, hc⟩
        simp [processData, hmatch]
    · by_cases hmatch : hd.repository = data.repository ∧ hd.arch = data.arch
      · refine ⟨m, ?_, rfl, rfl, hc⟩
        simp only [processData, if_pos hmatch]
        exact List.mem_cons_of_mem _ hmem
      · obtain ⟨m', hm', h1, h2, h3⟩ := ih m hmem hc
        refine ⟨m', ?_, h1, h2, h3⟩
        simp only [processData, if_neg hmatch]
        exact List.mem_cons_of_mem _ hm'

theorem processData_unknown_nochange :
    ∀ (last : List MonitorData) (data : MonitorData),
      data.code = PackageCode.unknown →
      (∃ m ∈ last, m.repository = data.repository ∧ m.arch = data.arch) →
      processData last data = last := by
  intro last
  induction last with
  | nil =>
    intro data _ hex
    obtain ⟨m, hm, _⟩ := hex
    cases hm
  | cons hd rest ih =>
    intro data hcode hex
    by_cases hmatch : hd.repository = data.repository ∧ hd.arch = data.arch
    · have hupd : ¬ (data.code ≠ PackageCode.unknown ∧ hd.code ≠ data.code) :=
        fun hu => hu.1 hcode
      simp [processData, hmatch, hupd]
    · obtain ⟨m, hm, hrep, harc⟩ := hex
      rcases List.mem_cons.mp hm with rfl | hmem
      · exact absurd ⟨hrep, harc⟩ hmatch
      · simp only [processData, if_neg hmatch]
        rw [ih data hcode ⟨m, hmem, hrep, harc⟩]

theorem monitorStep_none (package : String) :
    ∀ results : List ResultListResult,
      (results.foldl
        (fun acc r => acc.bind fun l =>
          (from_result r package).map (processData l))
        (none : Option (List MonitorData))) = none := by
  intro results
  induction results with
  | nil => rfl
  | cons r rest ih => simpa [Option.bind] using ih

/-- Claim C8: the status monitor never regresses a stored observation to
Unknown.  (1) `from_result` forces the observed code of a dirty result to
Unknown regardless of its raw code; (2) a whole poll step keeps, for every
stored (repository, arch) observation with a non-Unknown code, an
observation of that pair whose code is still not Unknown; (3) an observed
Unknown code leaves the stored observations entirely unchanged whenever
the pair is already tracked — Unknown only becomes the stored code when a
pair is first seen. -/
theorem c8_monitor_never_regresses :
    (∀ (r : ResultListResult) (package : String) (d : MonitorData),
      from_result r package = some d → r.dirty = true →
      d.code = PackageCode.unknown) ∧
    (∀ (results : List ResultListResult) (package : String)
       (last last' : List MonitorData),
      monitorStep last results package = some last' →
      ∀ m ∈ last, m.code ≠ PackageCode.unknown →
        ∃ m' ∈ last', m'.repository = m.repository ∧ m'.arch = m.arch ∧
          m'.code ≠ PackageCode.unknown) ∧
    (∀ (last : List MonitorData) (r : ResultListResult) (package : String)
       (d : MonitorData),
      from_result r package = some d → d.code = PackageCode.unknown →
      (∃ m ∈ last, m.repository = d.repository ∧ m.arch = d.arch) →
      processData last d = last) := by
  refine ⟨?_, ?_, ?_⟩
  · intro r package d hd hdirty
    unfold from_result at hd
    cases hs : alookup r.statuses package with
    | none => rw [hs] at hd; cases hd
    | some s =>
      rw [hs] at hd
      obtain rfl := (Option.some.inj hd).symm
      simp [hdirty]
  · intro results
    induction results with
    | nil =>
      intro package last last' hstep m hm hc
      obtain rfl : last = last' := Option.some.inj hstep
      exact ⟨m, hm, rfl, rfl, hc⟩
    | cons r rest ih =>
      intro package last last' hstep m hm hc
      unfold monitorStep at hstep
      rw [List.foldl_cons] at hstep
      cases hd : from_result r package with
      | none =>
        rw [hd] at hstep
        simp only [Option.some_bind, Option.map_none'] at hstep
        rw [monitorStep_none package rest] at hstep
        cases hstep
      | some d =>
        rw [hd] at hstep
        simp only [Option.some_bind, Option.map_some'] at hstep
        obtain ⟨m1, hm1, h1, h2, h3⟩ := processData_keeps_known d last m hm hc
        obtain ⟨m', hm', h1', h2', h3'⟩ := ih package (processData last d)
          last' hstep m1 hm1 h3
        exact ⟨m', hm', h1'.trans h1, h2'.trans h2, h3'⟩
  · intro last r package d hd hcode hex
    exact processData_unknown_nochange last d hcode hex

theorem c8_monitor_never_regresses_witness :
    (⟨"r", "a", PackageCode.unknown⟩ : MonitorData).code =
      PackageCode.unknown ∧
    (∃ m' ∈ [(⟨"r", "a", PackageCode.building⟩ : MonitorData)],
      m'.repository = "r" ∧ m'.arch = "a" ∧
      m'.code ≠ PackageCode.unknown) ∧
    processData [(⟨"r", "a", PackageCode.building⟩ : MonitorData)]
      ⟨"r", "a", PackageCode.unknown⟩ =
      [(⟨"r", "a", PackageCode.building⟩ : MonitorData)] := by
  refine ⟨?_, ?_, ?_⟩
  · exact c8_monitor_never_regresses.1
      ⟨"r", "a", true, [("p", PackageCode.failed)]⟩ "p"
      ⟨"r", "a", PackageCode.unknown⟩ rfl rfl
  · have h := c8_monitor_never_regresses.2.1
      [⟨"r", "a", true, [("p", PackageCode.failed)]⟩] "p"
      [⟨"r", "a", PackageCode.building⟩] [⟨"r", "a", PackageCode.building⟩]
      rfl ⟨"r", "a", PackageCode.building⟩ (List.mem_singleton.mpr rfl)
      (by decide)
    obtain ⟨m', hm', h1, h2, h3⟩ := h
    exact ⟨m', hm', h1, h2, h3⟩
  · exact c8_monitor_never_regresses.2.2
      [⟨"r", "a", PackageCode.building⟩]
      ⟨"r", "a", true, [("p", PackageCode.failed)]⟩ "p"
      ⟨"r", "a", PackageCode.unknown⟩ rfl rfl
      ⟨⟨"r", "a", PackageCode.building⟩, List.mem_singleton.mpr rfl, rfl, rfl⟩
